import Mathlib

/-!
# Verification of `datagloss_app.py` (Datagloss 3.1)

Shallow embedding of the single source file `src/datagloss_app.py` and proofs
about it.  The embedding models:

* the Python string primitives the program uses (`str.lower`, `str.strip`,
  `str.startswith`, `str.split(":", 1)`, `str.splitlines`, `in`, `str.replace`)
  as executable functions on `String`/`List Char`;
* the field-extraction loop of `save_explanation` (lines 63–67), including the
  possibility of a Python `IndexError` on `line.split(":", 1)[1]` as an
  `Option` result;
* the append-only record store backed by `sql_explanations.csv` as an
  `Option (List Record)` (`none` = the backing file is absent);
* `semantic_search` (lines 87–106).  The sentence-transformer model and
  the torch `cos_sim` kernel are external collaborators computing on floats, so
  they enter as parameters (`encode`, `cos`) with `Rat`-valued scores; the
  pipeline structure (text concatenation, per-row scoring, ranking, top 5) is
  modelled from the source.  `df.sort_values` on the "similarity" key, descending,
  is modelled the way pandas implements a single-key descending sort: a stable
  ascending argsort of the key followed by reversing the indexer (pandas
  `nargsort` reverses the ascending order unconditionally; the numpy default sort
  behaves as a stable insertion sort on inputs this small);
* `explain_sql` (lines 31–55): the outcome of the remote call is a parameter
  (`HttpOutcome`), and every Python exception the `try:` block can catch —
  transport errors, `raise_for_status`, JSON decoding, and the `IndexError`/
  `KeyError`/`TypeError`/`AttributeError` that the shape-dependent line 50 can
  raise — is an explicit error value converted by the `except` branch;
* the "Explain SQL" button handler (lines 118–123) as a function from the
  credential and the query text to its visible effects.
-/

/-! ## Python string primitives -/

/-- Models Python `str.lower` character-wise: ASCII upper-case letters are
shifted to lower case, every other character is unchanged.  (Unicode case
mapping never produces `':'` from a non-colon character, which is all the
proofs below rely on.) -/
def asciiLower (c : Char) : Char :=
  if 65 ≤ c.toNat ∧ c.toNat ≤ 90 then Char.ofNat (c.toNat + 32) else c

/-- Models `line.lower().startswith(label)` (source lines 64 and 66). -/
def lowerStartsWith (line label : String) : Bool :=
  label.data.isPrefixOf (line.data.map asciiLower)

/-- Strip whitespace from both ends of a character list. -/
def stripChars (l : List Char) : List Char :=
  ((l.dropWhile Char.isWhitespace).reverse.dropWhile Char.isWhitespace).reverse

/-- Models Python `str.strip()` (no argument): remove leading and trailing
whitespace. -/
def pyStrip (s : String) : String :=
  String.mk (stripChars s.data)

/-- Split a character list at the first `':'`: `some (before, after)` when a
colon occurs, `none` otherwise. -/
def breakAtColon : List Char → Option (List Char × List Char)
  | [] => none
  | c :: cs =>
    if c = ':' then some ([], cs)
    else (breakAtColon cs).map (fun p => (c :: p.1, p.2))

/-- Models Python `s.split(":", 1)`: a one-element list when `s` has no colon,
otherwise the part before and the part after the first colon. -/
def pySplitColon1 (s : String) : List String :=
  match breakAtColon s.data with
  | none => [s]
  | some (a, b) => [String.mk a, String.mk b]

/-- Models `line.split(":", 1)[1].strip()` (source lines 65 and 67): `none`
models the Python `IndexError` raised when the split has no second element. -/
def fieldValue (line : String) : Option String :=
  ((pySplitColon1 line).get? 1).map pyStrip

/-- Accumulator-based splitting of a character list on newline characters. -/
def splitLinesAux : List Char → List Char → List (List Char)
  | [], cur => [cur.reverse]
  | c :: rest, cur =>
    if c = '\n' then cur.reverse :: splitLinesAux rest []
    else splitLinesAux rest (c :: cur)

/-- Models Python `str.splitlines()` for texts whose line separator is `"\n"`
(the separator used by the templates and explanations of this program).  It
differs from
`splitlines` only in possibly yielding a final empty line (for text ending in
`"\n"`), which matches neither label guard and so never affects extraction. -/
def splitLines (s : String) : List String :=
  (splitLinesAux s.data []).map String.mk

/-- Models `s in t` for Python strings: `sub` occurs contiguously in `s`. -/
def infixAt (pat : List Char) : List Char → Bool
  | [] => pat.isEmpty
  | c :: rest => pat.isPrefixOf (c :: rest) || infixAt pat rest

/-- `strContains s sub` models the Python expression `sub in s`. -/
def strContains (s sub : String) : Bool :=
  infixAt sub.data s.data

/-! ## `save_explanation`: derived-field extraction (source lines 58–84) -/

/-- The body of the `for line in explanation.splitlines():` loop of
`save_explanation` (source lines 63–67), threading the pair
`(tables_used, columns_selected)`.  A `none` result models an uncaught Python
`IndexError` from `line.split(":", 1)[1]`. -/
def extractLoop : List String → String × String → Option (String × String)
  | [], acc => some acc
  | line :: rest, acc =>
    if lowerStartsWith line "tables used:" then
      match fieldValue line with
      | none => none
      | some v => extractLoop rest (v, acc.2)
    else if lowerStartsWith line "columns selected:" then
      match fieldValue line with
      | none => none
      | some v => extractLoop rest (acc.1, v)
    else extractLoop rest acc

/-- The derived `(tables_used, columns_selected)` pair computed by
`save_explanation` from the explanation text, starting from `("", "")`. -/
def extractFields (explanation : String) : Option (String × String) :=
  extractLoop (splitLines explanation) ("", "")

/-- One persisted row of `sql_explanations.csv` (source lines 69–75). -/
structure Record where
  timestamp : String
  sql_query : String
  explanation : String
  tables_used : String
  columns_selected : String
deriving DecidableEq, Repr

/-- The record store: `none` models an absent backing file, `some rows` a file
holding `rows` in order. -/
abbrev Store := Option (List Record)

/-- The record `save_explanation` builds from its inputs (source lines 58–75);
`none` models the extraction loop raising. -/
def mkRecordE (timestamp query explanation : String) : Option Record :=
  (extractFields explanation).map fun tc =>
    ⟨timestamp, query, explanation, tc.1, tc.2⟩

/-- Models `pd.read_csv(STORAGE_FILE)` preceded by the existence check: the
rows of the store, empty when the file is absent (source lines 77–81 and
92). -/
def load_all (store : Store) : List Record :=
  store.getD []

/-- Models `save_explanation` (source lines 58–84): build the new row, load the
existing table (or start empty), append, and write the whole table back.  The
outer `none` models the save raising before anything is written. -/
def save_explanation (store : Store) (timestamp query explanation : String) :
    Option Store :=
  (mkRecordE timestamp query explanation).map fun r =>
    some (load_all store ++ [r])

/-! ## Spec-side extraction (for the refinement claims) -/

/-- Spec-side definition, following the words of the spec (§3, claim C1) for
comparison with the code: first-match-wins extraction —
the text after the first colon, trimmed, of the FIRST line whose lowercase form
starts with `label`; `""` when no line matches. -/
def firstMatchField (label : String) (lines : List String) : String :=
  match lines.find? (fun l => lowerStartsWith l label) with
  | some l => (fieldValue l).getD ""
  | none => ""

/-- Last-match-wins extraction: the text after the first colon, trimmed, of the
LAST line whose lowercase form starts with `label`; `""` when no line
matches. -/
def lastMatchField (label : String) (lines : List String) : String :=
  match lines.reverse.find? (fun l => lowerStartsWith l label) with
  | some l => (fieldValue l).getD ""
  | none => ""

/-! ## `semantic_search` (source lines 87–106) -/

/-- The user-visible outcome of `semantic_search`: the warning shown when the
backing file is absent (line 89), the info message shown when it is empty
(line 94), or the ranked `(record, similarity)` rows displayed (line 106). -/
inductive SearchOutcome where
  | noHistory
  | noData
  | results (rows : List (Record × Rat))
deriving DecidableEq

/-- The rows a `SearchOutcome` displays; the two informational signals display
none. -/
def SearchOutcome.displayed : SearchOutcome → List (Record × Rat)
  | .results rows => rows
  | _ => []

/-- The comparison text of a row: `df["sql_query"] + " " + df["explanation"]`
(source line 100). -/
def embText (r : Record) : String :=
  r.sql_query ++ " " ++ r.explanation

/-- Ascending comparison on the `similarity` column. -/
def simLE (a b : Record × Rat) : Prop :=
  a.2 ≤ b.2

instance : DecidableRel simLE :=
  fun a b => inferInstanceAs (Decidable (a.2 ≤ b.2))

instance : IsTotal (Record × Rat) simLE :=
  ⟨fun a b => le_total a.2 b.2⟩

instance : IsTrans (Record × Rat) simLE :=
  ⟨fun _ _ _ hab hbc => le_trans hab hbc⟩

/-- Models `df.sort_values` on the "similarity" key, descending (source line
104): pandas computes an ascending argsort of the key column and reverses the
resulting indexer (`pandas.core.sorting.nargsort`).  The ascending argsort is
modelled as a stable sort, which is what the numpy default sort performs on
arrays of this size. -/
def sort_values_desc (rows : List (Record × Rat)) : List (Record × Rat) :=
  (rows.insertionSort simLE).reverse

/-- Models `semantic_search` (source lines 87–106).  `encode` stands for the
external sentence-transformer model (`model.encode`), `cos` for the torch
`util.cos_sim` kernel; both compute on floating point and enter as parameters,
with scores carried as `Rat`.  The second component counts the calls made to
`encode`: one for the query plus one per stored row, and `0` on the two
degenerate paths, which return before the model is even loaded. -/
def semantic_search (encode : String → List Rat) (cos : List Rat → List Rat → Rat)
    (store : Store) (query : String) : SearchOutcome × Nat :=
  match store with
  | none => (.noHistory, 0)
  | some [] => (.noData, 0)
  | some records =>
    let query_vec := encode query
    let scored := records.map fun r => (r, cos query_vec (encode (embText r)))
    (.results ((sort_values_desc scored).take 5), 1 + records.length)

/-! ## `explain_sql` (source lines 20–55) -/

/-- Models `get_explanation_template` (source lines 20–28). -/
def get_explanation_template : String :=
  "Summary:\nTables Used:\nColumns Selected:\nColumn Descriptions:\nFilters/Conditions:\nJoins/Groupings:\n"

/-- The prompt f-string of `explain_sql` (source lines 32–45), with its literal
leading newline and four-space indentation. -/
def promptFor (query : String) : String :=
  "\n    Please explain the following SQL query clearly in the format below. DO NOT rewrite the SQL. Return only the explanation.\n\n    Format:\n    Summary:\n    Tables Used:\n    Columns Selected:\n    Column Descriptions:\n    Filters/Conditions:\n    Joins/Groupings:\n\n    SQL:\n    "
    ++ query ++ "\n    "

/-- A JSON value, as `response.json()` can return one. -/
inductive Json where
  | null
  | bool (b : Bool)
  | num (q : Rat)
  | str (s : String)
  | arr (elems : List Json)
  | obj (fields : List (String × Json))

/-- Field lookup in a JSON object: the first binding of `key`. -/
def jsonGet (fields : List (String × Json)) (key : String) : Option Json :=
  (fields.find? (fun kv => kv.1 == key)).map Prod.snd

/-- Models source line 50,
`result[0]["generated_text"] if isinstance(result, list) else result.get("generated_text", "")`.
`.error` carries the Python exception the expression (or the subsequent string
operations on a non-string value) raises, to be caught by the `except` branch;
the messages are model labels for the exception class. -/
def extractGenerated : Json → Except String String
  | .arr [] => .error "IndexError: list index out of range"
  | .arr (.obj fields :: _) =>
    match jsonGet fields "generated_text" with
    | some (.str t) => .ok t
    | some _ => .error "TypeError: generated_text is not a string"
    | none => .error "KeyError: generated_text"
  | .arr (_ :: _) => .error "TypeError: first element is not subscriptable by a string"
  | .obj fields =>
    match jsonGet fields "generated_text" with
    | some (.str t) => .ok t
    | some _ => .error "TypeError: generated_text is not a string"
    | none => .ok ""
  | _ => .error "AttributeError: result has no attribute get"

/-- The outcome of the remote call in `explain_sql` (source lines 47–49):
`requests.post` raising, `raise_for_status` raising on a non-2xx status,
`response.json()` raising on a malformed body, or a parsed JSON value. -/
inductive HttpOutcome where
  | networkError (msg : String)
  | httpError (msg : String)
  | jsonError (msg : String)
  | json (v : Json)

/-- Models source lines 51–53: strip an echoed copy of the prompt from the
response text, then return it. -/
def stripEcho (query t : String) : String :=
  let p := pyStrip (promptFor query)
  if strContains t p then pyStrip (String.replace t p "") else t

/-- Models `explain_sql` (source lines 31–55).  The `try:` block is total here:
every exception it can raise is an explicit error value that the `except`
branch turns into the blank template with the error message appended. -/
def explain_sql (query : String) (outcome : HttpOutcome) : String :=
  match outcome with
  | .networkError m => get_explanation_template ++ "\n\n⚠️ Error: " ++ m
  | .httpError m => get_explanation_template ++ "\n\n⚠️ Error: " ++ m
  | .jsonError m => get_explanation_template ++ "\n\n⚠️ Error: " ++ m
  | .json v =>
    match extractGenerated v with
    | .error m => get_explanation_template ++ "\n\n⚠️ Error: " ++ m
    | .ok t => stripEcho query t

/-! ## The "Explain SQL" button handler (source lines 118–123) -/

/-- The visible effects of one click of the "Explain SQL" button. -/
structure ExplainTabEffects where
  warned : Bool
  explainCalls : Nat
deriving DecidableEq, Repr

/-- Models the button handler (source lines 118–123): with a falsy (empty)
`HF_API_KEY` it warns and never calls `explain_sql`; otherwise it calls
`explain_sql` exactly when the stripped query text is non-empty. -/
def explainTabHandler (hf_api_key sql_query : String) : ExplainTabEffects :=
  if hf_api_key = "" then ⟨true, 0⟩
  else if pyStrip sql_query ≠ "" then ⟨false, 1⟩
  else ⟨false, 0⟩

/-- Last-match-wins extraction generalised over the value reported when no line
matches, matching the accumulator threading of the extraction loop. -/
def lastD (label : String) (lines : List String) (dflt : String) : String :=
  match lines.reverse.find? (fun l => lowerStartsWith l label) with
  | some l => (fieldValue l).getD ""
  | none => dflt

/-! ## Concrete sample data for witnesses -/

/-- A sample stored record. -/
def recA : Record := ⟨"2024-01-01 10:00:00", "SELECT a FROM t", "explains a", "t", "a"⟩

/-- A second, distinct sample stored record. -/
def recB : Record := ⟨"2024-01-01 11:00:00", "SELECT b FROM u", "explains b", "u", "b"⟩

/-! ## Supporting lemmas: the extraction loop -/

theorem asciiLower_eq_colon {c : Char} (h : asciiLower c = ':') : c = ':' := by
  unfold asciiLower at h
  split at h
  · rename_i hc
    exfalso
    obtain ⟨h1, h2⟩ := hc
    set n := c.toNat with hn
    interval_cases n <;> exact absurd h (by decide)
  · exact h

theorem colon_mem_of_lowerStartsWith {l label : String}
    (h : lowerStartsWith l label = true) (hc : ':' ∈ label.data) :
    ':' ∈ l.data := by
  unfold lowerStartsWith at h
  have hp : label.data <+: l.data.map asciiLower := List.isPrefixOf_iff_prefix.mp h
  obtain ⟨t, ht⟩ := hp
  have : ':' ∈ l.data.map asciiLower := by
    rw [← ht]; exact List.mem_append_left _ hc
  obtain ⟨c, hcm, hce⟩ := List.mem_map.mp this
  exact asciiLower_eq_colon hce ▸ hcm

theorem breakAtColon_isSome {l : List Char} (h : ':' ∈ l) :
    (breakAtColon l).isSome := by
  induction l with
  | nil => cases h
  | cons c cs ih =>
    unfold breakAtColon
    split
    · rfl
    · rename_i hne
      rcases List.mem_cons.mp h with rfl | hm
      · exact absurd rfl hne
      · cases hb : breakAtColon cs with
        | none => rw [hb] at ih; exact absurd (ih hm) (by simp)
        | some p => simp [hb]

theorem fieldValue_isSome {l label : String}
    (h : lowerStartsWith l label = true) (hc : ':' ∈ label.data) :
    ∃ v, fieldValue l = some v := by
  have hmem := colon_mem_of_lowerStartsWith h hc
  have hbs := breakAtColon_isSome hmem
  unfold fieldValue pySplitColon1
  cases hb : breakAtColon l.data with
  | none => rw [hb] at hbs; cases hbs
  | some p => exact ⟨pyStrip (String.mk p.2), by simp [hb]⟩

theorem guards_disjoint {l : String}
    (h1 : lowerStartsWith l "tables used:" = true)
    (h2 : lowerStartsWith l "columns selected:" = true) : False := by
  unfold lowerStartsWith at h1 h2
  obtain ⟨t1, ht1⟩ := List.isPrefixOf_iff_prefix.mp h1
  obtain ⟨t2, ht2⟩ := List.isPrefixOf_iff_prefix.mp h2
  have : ("tables used:".data ++ t1).head? = ("columns selected:".data ++ t2).head? := by
    rw [ht1, ht2]
  simp at this

theorem lastD_cons (label line : String) (rest : List String) (dflt : String) :
    lastD label (line :: rest) dflt =
      lastD label rest
        (if lowerStartsWith line label then (fieldValue line).getD "" else dflt) := by
  unfold lastD
  rw [List.reverse_cons, List.find?_append]
  cases hf : List.find? (fun l => lowerStartsWith l label) rest.reverse with
  | some x => simp [hf]
  | none =>
    simp only [hf, Option.none_or]
    by_cases hg : lowerStartsWith line label
    · simp [List.find?_cons, hg]
    · simp [List.find?_cons, hg]

theorem extractLoop_cons_tables {line : String} {rest : List String} {t c v : String}
    (hT : lowerStartsWith line "tables used:" = true) (hv : fieldValue line = some v) :
    extractLoop (line :: rest) (t, c) = extractLoop rest (v, c) := by
  simp [extractLoop, hT, hv]

theorem extractLoop_cons_columns {line : String} {rest : List String} {t c v : String}
    (hT : lowerStartsWith line "tables used:" = false)
    (hC : lowerStartsWith line "columns selected:" = true)
    (hv : fieldValue line = some v) :
    extractLoop (line :: rest) (t, c) = extractLoop rest (t, v) := by
  simp [extractLoop, hT, hC, hv]

theorem extractLoop_cons_other {line : String} {rest : List String} {t c : String}
    (hT : lowerStartsWith line "tables used:" = false)
    (hC : lowerStartsWith line "columns selected:" = false) :
    extractLoop (line :: rest) (t, c) = extractLoop rest (t, c) := by
  simp [extractLoop, hT, hC]

theorem extractLoop_eq (lines : List String) :
    ∀ t c, extractLoop lines (t, c) =
      some (lastD "tables used:" lines t, lastD "columns selected:" lines c) := by
  induction lines with
  | nil => intro t c; simp [extractLoop, lastD]
  | cons line rest ih =>
    intro t c
    rw [lastD_cons, lastD_cons]
    by_cases hT : lowerStartsWith line "tables used:"
    · obtain ⟨v, hv⟩ := fieldValue_isSome hT (by decide)
      have hC : lowerStartsWith line "columns selected:" = false := by
        by_contra h
        exact guards_disjoint hT (by simpa using h)
      rw [extractLoop_cons_tables hT hv, ih v c]
      simp [hT, hC, hv]
    · by_cases hC : lowerStartsWith line "columns selected:"
      · obtain ⟨v, hv⟩ := fieldValue_isSome hC (by decide)
        rw [extractLoop_cons_columns (by simpa using hT) hC hv, ih t v]
        simp [hT, hC, hv]
      · rw [extractLoop_cons_other (by simpa using hT) (by simpa using hC), ih t c]
        simp [hT, hC]

theorem extractFields_eq (e : String) :
    extractFields e =
      some (lastMatchField "tables used:" (splitLines e),
            lastMatchField "columns selected:" (splitLines e)) := by
  unfold extractFields
  rw [extractLoop_eq]
  rfl

/-! ## Supporting lemmas: the ranking -/

theorem sort_values_desc_length (rows : List (Record × Rat)) :
    (sort_values_desc rows).length = rows.length := by
  simp [sort_values_desc, List.length_insertionSort]

theorem sorted_take_sort_values_desc (rows : List (Record × Rat)) :
    List.Pairwise (fun a b : Record × Rat => b.2 ≤ a.2) ((sort_values_desc rows).take 5) := by
  have hs : List.Sorted simLE (rows.insertionSort simLE) :=
    List.sorted_insertionSort simLE rows
  have hrev : List.Pairwise (fun a b : Record × Rat => b.2 ≤ a.2)
      ((rows.insertionSort simLE).reverse) := by
    rw [List.pairwise_reverse]
    exact hs
  exact List.Pairwise.sublist (List.take_sublist 5 _) hrev

theorem orderedInsert_all_eq {c : Rat} (a : Record × Rat) (l : List (Record × Rat))
    (ha : a.2 = c) (hl : ∀ x ∈ l, x.2 = c) :
    l.orderedInsert simLE a = a :: l := by
  cases l with
  | nil => rfl
  | cons b l2 =>
    have hab : simLE a b := by
      unfold simLE
      rw [ha, hl b (by simp)]
    exact @List.orderedInsert_of_le _ simLE _ _ _ l2 hab

theorem insertionSort_all_eq {c : Rat} :
    ∀ l : List (Record × Rat), (∀ x ∈ l, x.2 = c) → l.insertionSort simLE = l := by
  intro l
  induction l with
  | nil => intro _; rfl
  | cons a l2 ih =>
    intro h
    rw [List.insertionSort, ih (fun x hx => h x (by simp [hx]))]
    exact orderedInsert_all_eq a l2 (h a (by simp)) (fun x hx => h x (by simp [hx]))

theorem semantic_search_results_inv (encode : String → List Rat)
    (cos : List Rat → List Rat → Rat) (query : String) (r0 : Record)
    (rs : List Record) (out : List (Record × Rat)) (k : Nat)
    (h : semantic_search encode cos (some (r0 :: rs)) query = (.results out, k)) :
    out = (sort_values_desc ((r0 :: rs).map fun r =>
      (r, cos (encode query) (encode (embText r))))).take 5 ∧
    k = 1 + (r0 :: rs).length := by
  simp only [semantic_search, Prod.mk.injEq, SearchOutcome.results.injEq] at h
  exact ⟨h.1.symm, h.2.symm⟩

/-! ## Supporting lemmas: prompt stripping -/

theorem mem_dropWhile_of_neg {p : Char → Bool} {c : Char} (hc : p c = false) :
    ∀ {l : List Char}, c ∈ l → c ∈ l.dropWhile p := by
  intro l
  induction l with
  | nil => intro h; cases h
  | cons a l2 ih =>
    intro h
    rw [List.dropWhile_cons]
    by_cases hp : p a
    · rcases List.mem_cons.mp h with rfl | hm
      · rw [hp] at hc; cases hc
      · simp only [hp, if_true]
        exact ih hm
    · simp only [hp, Bool.false_eq_true, if_false]
      exact h

theorem stripChars_ne_nil {l : List Char} {c : Char}
    (hc : Char.isWhitespace c = false) (hm : c ∈ l) : stripChars l ≠ [] := by
  unfold stripChars
  intro h
  rw [List.reverse_eq_nil_iff] at h
  have h1 : c ∈ l.dropWhile Char.isWhitespace := mem_dropWhile_of_neg hc hm
  have h2 : c ∈ (l.dropWhile Char.isWhitespace).reverse := List.mem_reverse.mpr h1
  have h3 := mem_dropWhile_of_neg hc h2
  rw [h] at h3
  cases h3

theorem promptStrip_ne_nil (q : String) : (pyStrip (promptFor q)).data ≠ [] := by
  unfold pyStrip promptFor
  show stripChars _ ≠ []
  apply stripChars_ne_nil (c := 'P') (by decide)
  rw [String.data_append, String.data_append]
  exact List.mem_append_left _ (List.mem_append_left _ (by decide))

/-! ## Claims -/

/-- C1 (counterexample): the claim says the derived `tables_used` field equals
the extraction from the FIRST matching line, but on the explanation text
`"Tables Used: a\nTables Used: b"` the loop of `save_explanation` yields
`"b"` (the LAST matching line) while first-match extraction yields `"a"`. -/
theorem C1_counterexample :
    extractFields "Tables Used: a\nTables Used: b" = some ("b", "") ∧
    firstMatchField "tables used:"
      (splitLines "Tables Used: a\nTables Used: b") = "a" ∧
    ("b" : String) ≠ "a" := by
  refine ⟨by decide, by decide, by decide⟩

/-- C1 (amended): for every explanation text, the derived
`(tables_used, columns_selected)` pair equals, per label, the text after the
first colon, trimmed, of the LAST line whose lowercase form starts with the
label (case-insensitive on the label only), and the empty string when no such
line exists. -/
theorem C1_last_match_extraction (e : String) :
    extractFields e =
      some (lastMatchField "tables used:" (splitLines e),
            lastMatchField "columns selected:" (splitLines e)) :=
  extractFields_eq e

/-- C2 (counterexample): with two distinct stored records whose similarity
scores are equal, `semantic_search` displays them in REVERSED original order,
so the ranking does not preserve the relative order of equal-scoring
candidates. -/
theorem C2_counterexample :
    semantic_search (fun _ => ([] : List Rat)) (fun _ _ => (0 : Rat))
        (some [recA, recB]) "q"
      = (.results [(recB, 0), (recA, 0)], 3) ∧
    recA ≠ recB ∧
    ([(recB, (0 : Rat)), (recA, 0)] : List (Record × Rat))
      ≠ [(recA, 0), (recB, 0)] := by
  refine ⟨by decide, by decide, by decide⟩

/-- C2 (amended): when all candidates score equally, the ranking returned by
`semantic_search` is the REVERSE of the original candidate order (truncated to
five): the descending sort reverses a stable ascending sort, so ties come out
in reversed, not preserved, relative order. -/
theorem C2_ties_reversed (encode : String → List Rat)
    (cos : List Rat → List Rat → Rat) (query : String) (records : List Record)
    (c : Rat) (hne : records ≠ [])
    (hc : ∀ r ∈ records, cos (encode query) (encode (embText r)) = c) :
    semantic_search encode cos (some records) query =
      (.results (((records.map fun r => (r, c)).reverse).take 5),
        1 + records.length) := by
  cases records with
  | nil => exact absurd rfl hne
  | cons r0 rs =>
    simp only [semantic_search]
    have hmap : ((r0 :: rs).map fun r => (r, cos (encode query) (encode (embText r)))) =
        ((r0 :: rs).map fun r => (r, c)) :=
      List.map_congr_left (fun r hr => by rw [hc r hr])
    rw [hmap]
    unfold sort_values_desc
    have hall : ∀ x ∈ ((r0 :: rs).map fun r => (r, c)), (x : Record × Rat).2 = c := by
      intro x hx
      obtain ⟨r, -, rfl⟩ := List.mem_map.mp hx
      rfl
    rw [insertionSort_all_eq _ hall]

/-- C2 (witness for the amended theorem): two equal-scoring records come back
in reversed order. -/
theorem C2_ties_reversed_witness :
    semantic_search (fun _ => ([] : List Rat)) (fun _ _ => (0 : Rat))
        (some [recA, recB]) "qq"
      = (.results [(recB, 0), (recA, 0)], 3) :=
  C2_ties_reversed (fun _ => []) (fun _ _ => 0) "qq" [recA, recB] 0
    (by decide) (fun _ _ => rfl)

/-- C3: for every non-empty candidate set, the result list displayed by
`semantic_search` has at most `min 5 |candidates|` entries. -/
theorem C3_at_most_five (encode : String → List Rat)
    (cos : List Rat → List Rat → Rat) (query : String) (records : List Record)
    (out : List (Record × Rat)) (k : Nat) (hne : records ≠ [])
    (h : semantic_search encode cos (some records) query = (.results out, k)) :
    out.length ≤ min 5 records.length := by
  cases records with
  | nil => exact absurd rfl hne
  | cons r0 rs =>
    obtain ⟨hout, -⟩ := semantic_search_results_inv encode cos query r0 rs out k h
    rw [hout, List.length_take, sort_values_desc_length, List.length_map]

/-- C3 (witness): a one-record store yields one displayed row. -/
theorem C3_at_most_five_witness :
    ([(recA, (0 : Rat))] : List (Record × Rat)).length ≤ min 5 [recA].length :=
  C3_at_most_five (fun _ => []) (fun _ _ => 0) "q" [recA] [(recA, 0)] 2
    (by decide) (by decide)

/-- C4: the result list displayed by `semantic_search` is sorted by similarity
score in descending order: every element is scored no lower than its
successor. -/
theorem C4_sorted_descending (encode : String → List Rat)
    (cos : List Rat → List Rat → Rat) (store : Store) (query : String)
    (out : List (Record × Rat)) (k i : Nat) (a b : Record × Rat)
    (h : semantic_search encode cos store query = (.results out, k))
    (ha : out.get? i = some a) (hb : out.get? (i + 1) = some b) :
    b.2 ≤ a.2 := by
  match store with
  | none => simp [semantic_search] at h
  | some [] => simp [semantic_search] at h
  | some (r0 :: rs) =>
    obtain ⟨hout, -⟩ := semantic_search_results_inv encode cos query r0 rs out k h
    have hsorted : List.Pairwise (fun x y : Record × Rat => y.2 ≤ x.2) out := by
      rw [hout]
      exact sorted_take_sort_values_desc _
    obtain ⟨hia, hga⟩ := List.get?_eq_some.mp ha
    obtain ⟨hib, hgb⟩ := List.get?_eq_some.mp hb
    have hrel := @List.Sorted.rel_get_of_lt _ _ _ hsorted ⟨i, hia⟩ ⟨i + 1, hib⟩
      (by simp [Fin.lt_def])
    rw [hga, hgb] at hrel
    exact hrel

/-- C4 (witness): adjacent scores in a concrete two-record search are
descending. -/
theorem C4_sorted_descending_witness :
    ((recA, (0 : Rat)) : Record × Rat).2 ≤ ((recB, (0 : Rat)) : Record × Rat).2 :=
  C4_sorted_descending (fun _ => []) (fun _ _ => 0) (some [recA, recB]) "q"
    [(recB, 0), (recA, 0)] 3 0 (recB, 0) (recA, 0)
    (by decide) (by decide) (by decide)

/-- C5: with an absent backing file `semantic_search` returns the
"no saved history" signal, with an existing but empty store the distinct
"no data to search" signal; both display an empty ranking and make zero calls
to the embedding model. -/
theorem C5_degenerate (encode : String → List Rat)
    (cos : List Rat → List Rat → Rat) (query : String) :
    semantic_search encode cos none query = (.noHistory, 0) ∧
    semantic_search encode cos (some []) query = (.noData, 0) ∧
    (semantic_search encode cos none query).1.displayed = [] ∧
    (semantic_search encode cos (some []) query).1.displayed = [] ∧
    SearchOutcome.noHistory ≠ SearchOutcome.noData :=
  ⟨rfl, rfl, rfl, rfl, by simp⟩

/-- C6: saving a record appends it: after `save_explanation`, `load_all` yields
the old rows followed by exactly the new record, so the last element is the new
record, the length grew by one, and the prefix of old rows is unchanged. -/
theorem C6_append_then_load (store : Store) (ts q e : String) (r : Record)
    (h : mkRecordE ts q e = some r) :
    ∃ s2, save_explanation store ts q e = some s2 ∧
      load_all s2 = load_all store ++ [r] ∧
      (load_all s2).getLast? = some r ∧
      (load_all s2).length = (load_all store).length + 1 ∧
      (load_all s2).take (load_all store).length = load_all store := by
  refine ⟨some (load_all store ++ [r]), ?_, rfl, ?_, ?_, ?_⟩
  · unfold save_explanation
    rw [h]
    rfl
  · simp [load_all]
  · simp [load_all]
  · simp [load_all]

/-- C6 (witness): appending a concrete record to a one-record store. -/
theorem C6_append_then_load_witness :
    ∃ s2, save_explanation (some [recA]) "2024-01-02 09:00:00" "SELECT 1"
        "Tables Used: t1" = some s2 ∧
      load_all s2 = load_all (some [recA])
        ++ [⟨"2024-01-02 09:00:00", "SELECT 1", "Tables Used: t1", "t1", ""⟩] ∧
      (load_all s2).getLast?
        = some ⟨"2024-01-02 09:00:00", "SELECT 1", "Tables Used: t1", "t1", ""⟩ ∧
      (load_all s2).length = (load_all (some [recA])).length + 1 ∧
      (load_all s2).take (load_all (some [recA])).length = load_all (some [recA]) :=
  C6_append_then_load (some [recA]) "2024-01-02 09:00:00" "SELECT 1"
    "Tables Used: t1"
    ⟨"2024-01-02 09:00:00", "SELECT 1", "Tables Used: t1", "t1", ""⟩ (by decide)

/-- C7: whenever the remote explanation call fails — the POST raising, a
non-2xx status, or a malformed JSON body — `explain_sql` returns the fixed
six-field blank template with the error message appended, and (being a total
function on these outcomes) propagates no exception. -/
theorem C7_failure_template (q m : String) :
    explain_sql q (.networkError m) = get_explanation_template ++ "\n\n⚠️ Error: " ++ m ∧
    explain_sql q (.httpError m) = get_explanation_template ++ "\n\n⚠️ Error: " ++ m ∧
    explain_sql q (.jsonError m) = get_explanation_template ++ "\n\n⚠️ Error: " ++ m :=
  ⟨rfl, rfl, rfl⟩

/-- C8 (counterexample): the claim says any well-formed JSON of unexpected
shape degrades to an empty explanation string, but an empty JSON array makes
line 50 raise an `IndexError`, which the `except` branch turns into the
error-annotated template — not the empty string. -/
theorem C8_counterexample :
    explain_sql "SELECT 1" (.json (.arr []))
      = get_explanation_template
        ++ "\n\n⚠️ Error: IndexError: list index out of range" ∧
    explain_sql "SELECT 1" (.json (.arr [])) ≠ "" :=
  ⟨rfl, by decide⟩

/-- C8 (amended): only a JSON OBJECT without a `generated_text` field degrades
to the empty explanation string; other unexpected shapes (arrays, scalars)
raise inside the `try:` block and yield the error-annotated template
instead. -/
theorem C8_dict_empty (q : String) (fields : List (String × Json))
    (h : jsonGet fields "generated_text" = none) :
    explain_sql q (.json (.obj fields)) = "" := by
  simp only [explain_sql, extractGenerated, h]
  show stripEcho q "" = ""
  have hfalse : strContains "" (pyStrip (promptFor q)) = false := by
    unfold strContains
    show (pyStrip (promptFor q)).data.isEmpty = false
    cases hd : (pyStrip (promptFor q)).data with
    | nil => exact absurd hd (promptStrip_ne_nil q)
    | cons a l => rfl
  simp only [stripEcho, hfalse, Bool.false_eq_true, if_false]

/-- C8 (witness for the amended theorem): an object with no fields yields the
empty explanation string. -/
theorem C8_dict_empty_witness :
    explain_sql "SELECT 1" (.json (.obj [])) = "" :=
  C8_dict_empty "SELECT 1" [] rfl

/-- C9: with an absent (empty) bearer credential, one click of the
"Explain SQL" button produces the warning and `explain_sql` is never
invoked. -/
theorem C9_no_key_no_call (sql : String) :
    explainTabHandler "" sql = ⟨true, 0⟩ :=
  rfl

/-- C10: every line passing a lowercase label guard necessarily contains a
colon, so `line.split(":", 1)[1]` is defined there, and consequently the
whole field-extraction loop of `save_explanation` never fails. -/
theorem C10_colon_split_safe (e line : String) :
    (lowerStartsWith line "tables used:" = true ∨
        lowerStartsWith line "columns selected:" = true →
      ∃ v, fieldValue line = some v) ∧
    (extractFields e).isSome = true := by
  constructor
  · intro hl
    rcases hl with h | h
    · exact fieldValue_isSome h (by decide)
    · exact fieldValue_isSome h (by decide)
  · rw [extractFields_eq]
    rfl

/-- C10 (witness): the guard implication and loop totality at concrete
inputs. -/
theorem C10_colon_split_safe_witness :
    (∃ v, fieldValue "Tables Used: t1, t2" = some v) ∧
    (extractFields "Summary:\nTables Used: t1").isSome = true :=
  ⟨(C10_colon_split_safe "Summary:\nTables Used: t1" "Tables Used: t1, t2").1
      (Or.inl (by decide)),
    (C10_colon_split_safe "Summary:\nTables Used: t1" "Tables Used: t1, t2").2⟩
